import Mathlib

/-!
Shallow embedding of the scan-to-order application core (cart engine,
order store, queue sequence, lifecycle controller and persistence
normalization), together with theorems settling the specified
properties of the system. Money amounts are modelled as exact
rationals, timestamps as natural epoch milliseconds.
-/

namespace S2O

/-- Order lifecycle status, the union type of the source. -/
inductive Status where
  | New
  | Paid
  | Preparing
  | Ready
  | Done
  | Cancelled
deriving DecidableEq, Repr

/-- An add-on attached to a cart line item or order item. -/
structure Addon where
  id : String
  name : String
  price : ℚ
  qty : Nat
deriving DecidableEq, Repr

/-- A cart line item. -/
structure CartItem where
  sku : String
  flavorId : String
  name : String
  unitPrice : ℚ
  qty : Nat
  addons : List Addon
deriving DecidableEq, Repr

/-- A frozen order line item. -/
structure OrderItem where
  sku : String
  name : String
  unitPrice : ℚ
  qty : Nat
  addons : List Addon
deriving DecidableEq, Repr

/-- A persisted order record. -/
structure Order where
  id : String
  items : List OrderItem
  total : ℚ
  status : Status
  createdAt : Nat
  expiresAt : Option Nat
  note : Option String
  pickupName : String
  phone : Option String
  marketingOptIn : Bool
deriving DecidableEq, Repr

/-- A catalog flavor; priceDelta is optional in the source. -/
structure Flavor where
  id : String
  name : String
  priceDelta : Option ℚ
  popular : Bool
deriving DecidableEq, Repr

/-- A catalog drink. -/
structure Drink where
  id : String
  name : String
  price : ℚ
deriving DecidableEq, Repr

/-- PRODUCT.id from the catalog constant. -/
def PRODUCT_id : String := "souffle"

/-- PRODUCT.basePrice from the catalog constant (RM 12.00). -/
def PRODUCT_basePrice : ℚ := 12

/-- The FLAVORS catalog list. -/
def FLAVORS : List Flavor :=
  [ ⟨"van", "Vanilla", none, false⟩,
    ⟨"cho", "Chocolate", none, true⟩,
    ⟨"mat", "Matcha", some (3/2), true⟩,
    ⟨"str", "Strawberry", none, false⟩,
    ⟨"mng", "Mango", none, false⟩,
    ⟨"egl", "Earl Grey", none, false⟩,
    ⟨"hoj", "Hojicha", some (3/2), false⟩,
    ⟨"blu", "Blueberry", none, false⟩,
    ⟨"bis", "Biscoff", some 2, false⟩ ]

/-- The DRINKS catalog list. -/
def DRINKS : List Drink := [⟨"drink-hojicha", "Hojicha (Drink)", 3⟩]

/-- CHEESE.id catalog constant. -/
def CHEESE_id : String := "addon-cheese"

/-- CHEESE.name catalog constant. -/
def CHEESE_name : String := "Cheese Topping"

/-- CHEESE.price catalog constant (RM 2.00). -/
def CHEESE_price : ℚ := 2

/-- priceFor: base price plus the flavor delta, delta defaulting to 0
(the source uses a falsy-or, which agrees with the default on 0). -/
def priceFor (f : Flavor) : ℚ := PRODUCT_basePrice + f.priceDelta.getD 0

/-- PAYMENT_WINDOW_MIN constant: minutes before auto-cancel. -/
def PAYMENT_WINDOW_MIN : Nat := 10

/-- The sku derived for a flavor line item. -/
def skuOfFlavor (f : Flavor) : String := PRODUCT_id ++ "-" ++ f.id

/-- addFlavor: increment the qty of the existing line with the derived
sku, or append a fresh line with qty 1 and no addons. -/
def addFlavor (f : Flavor) (prev : List CartItem) : List CartItem :=
  let sku := skuOfFlavor f
  match prev.find? (fun p => p.sku == sku) with
  | some _ => prev.map (fun p => if p.sku == sku then { p with qty := p.qty + 1 } else p)
  | none =>
      prev ++ [{ sku := sku, flavorId := f.id, name := "Soufflé — " ++ f.name,
                 unitPrice := priceFor f, qty := 1, addons := [] }]

/-- The body of addDrink after the catalog lookup has succeeded:
increment the qty of the existing line keyed by the drink sku, or
append a fresh line with qty 1 and no addons. -/
def addDrinkItem (d : Drink) (prev : List CartItem) : List CartItem :=
  match prev.find? (fun p => p.sku == d.id) with
  | some _ => prev.map (fun p => if p.sku == d.id then { p with qty := p.qty + 1 } else p)
  | none =>
      prev ++ [{ sku := d.id, flavorId := "", name := d.name,
                 unitPrice := d.price, qty := 1, addons := [] }]

/-- addDrink: catalog lookup by drink id, then the upsert body. The
source asserts the lookup succeeds; the failure case is modelled as
none. -/
def addDrink (id : String) (prev : List CartItem) : Option (List CartItem) :=
  (DRINKS.find? (fun x => x.id == id)).map (fun d => addDrinkItem d prev)

/-- Increment the qty of the first addon with the cheese id; this is
the effect of the in-place mutation of the addon found by find in the
source. -/
def incFirstCheese : List Addon → List Addon
  | [] => []
  | a :: rest =>
      if a.id == CHEESE_id then { a with qty := a.qty + 1 } :: rest
      else a :: incFirstCheese rest

/-- addCheeseToSouffle: increment the existing cheese addon on the
targeted line (no cap), or append one with qty 1. -/
def addCheeseToSouffle (sku : String) (prev : List CartItem) : List CartItem :=
  prev.map (fun p =>
    if p.sku == sku then
      match p.addons.find? (fun a => a.id == CHEESE_id) with
      | some _ => { p with addons := incFirstCheese p.addons }
      | none =>
          { p with addons := p.addons ++
              [{ id := CHEESE_id, name := CHEESE_name, price := CHEESE_price, qty := 1 }] }
    else p)

/-- addCheeseToDrink: like addCheeseToSouffle but the increment is
guarded by the cap max = p.qty (at most one cheese per drink unit). -/
def addCheeseToDrink (sku : String) (prev : List CartItem) : List CartItem :=
  prev.map (fun p =>
    if p.sku == sku then
      match p.addons.find? (fun a => a.id == CHEESE_id) with
      | some ex =>
          if ex.qty < p.qty then { p with addons := incFirstCheese p.addons } else p
      | none =>
          { p with addons := p.addons ++
              [{ id := CHEESE_id, name := CHEESE_name, price := CHEESE_price, qty := 1 }] }
    else p)

/-- inc: increment the qty of the matching line item. -/
def inc (sku : String) (prev : List CartItem) : List CartItem :=
  prev.map (fun p => if p.sku == sku then { p with qty := p.qty + 1 } else p)

/-- dec: no-op when the sku is absent; remove the line when its qty is
at most 1; otherwise decrement the qty. -/
def dec (sku : String) (prev : List CartItem) : List CartItem :=
  match prev.find? (fun p => p.sku == sku) with
  | none => prev
  | some x =>
      if x.qty ≤ 1 then prev.filter (fun p => !(p.sku == sku))
      else prev.map (fun p => if p.sku == sku then { p with qty := p.qty - 1 } else p)

/-- The addon reduce inside subtotal: sum of price times qty. -/
def addonSum (l : List Addon) : ℚ :=
  l.foldl (fun a ad => a + ad.price * (ad.qty : ℚ)) 0

/-- subtotal: the reduce over the cart of base price plus addon sum. -/
def subtotal (cart : List CartItem) : ℚ :=
  cart.foldl (fun s i => s + (i.unitPrice * (i.qty : ℚ) + addonSum i.addons)) 0

/-- Rounding of a money amount to 2 decimal places, half toward plus
infinity on ties, the behaviour of toFixed(2) followed by parseFloat
on the idealized exact value. -/
def round2 (q : ℚ) : ℚ := ((q * 100 + 1/2).floor : ℚ) / 100

/-- The queue sequence record stored under the sequence key. -/
structure SeqState where
  y : Nat
  n : Nat
deriving DecidableEq, Repr

/-- String.padStart(3, "0") of the source: left-pad with zeros up to
length 3. -/
def padStart3 (s : String) : String :=
  if s.length < 3 then String.mk (List.replicate (3 - s.length) '0') ++ s else s

/-- nextQueueNumber: read the stored sequence (defaulting to the
current year with counter 0), reset the counter on a year change,
increment, store, and format the queue number. Returns the formatted
number and the stored sequence after the call. -/
def nextQueueNumber (nowYear : Nat) (st : Option SeqState) : String × SeqState :=
  let s0 := st.getD ⟨nowYear, 0⟩
  let s1 := if s0.y ≠ nowYear then (⟨nowYear, 0⟩ : SeqState) else s0
  let s2 : SeqState := ⟨s1.y, s1.n + 1⟩
  ("Q-" ++ padStart3 (toString s2.n), s2)

/-- The persisted backend state: the stored order collection and the
stored queue sequence (absent before the first order). -/
structure Store where
  orders : List Order
  seq : Option SeqState
deriving DecidableEq, Repr

/-- The inputs read by submitOrder from the customer form state. -/
structure SubmitInput where
  cart : List CartItem
  note : String
  pickupName : String
  phone : String
  marketing : Bool
deriving DecidableEq, Repr

/-- The falsy-or coercion the source applies to optional text fields:
an empty string becomes undefined. -/
def strOpt (s : String) : Option String := if s == "" then none else some s

/-- The whitespace characters stripped by the string trim of the
platform (the ASCII white space set). -/
def jsWhitespace (c : Char) : Bool :=
  c = ' ' || c = '\t' || c = '\n' || c = '\r' || c = '\u000b' || c = '\u000c'

/-- The trim applied to the pickup name and the phone number: strip
leading and trailing whitespace. -/
def jsTrim (s : String) : String :=
  String.mk (((s.data.dropWhile jsWhitespace).reverse.dropWhile jsWhitespace).reverse)

/-- The projection of a cart line item to a frozen order item. -/
def orderItemOfCart (c : CartItem) : OrderItem :=
  { sku := c.sku, name := c.name, unitPrice := c.unitPrice, qty := c.qty, addons := c.addons }

/-- submitOrder: reject an empty cart or a blank trimmed pickup name
with no state change; otherwise draw the next queue number, build the
order (total rounded once from the subtotal, expiry one payment
window after creation), prepend it and truncate to 300 records.
Returns the created order, if any, with the new store state. The
ambient clock now stands for the Date.now() reads of the handler and
nowYear for the observed calendar year. -/
def submitOrder (inp : SubmitInput) (now nowYear : Nat) (st : Store) :
    Option Order × Store :=
  if inp.cart.length = 0 then (none, st)
  else if jsTrim inp.pickupName == "" then (none, st)
  else
    let qs := nextQueueNumber nowYear st.seq
    let order : Order :=
      { id := qs.1,
        items := inp.cart.map orderItemOfCart,
        total := round2 (subtotal inp.cart),
        status := .New,
        createdAt := now,
        expiresAt := some (now + PAYMENT_WINDOW_MIN * 60 * 1000),
        note := strOpt inp.note,
        pickupName := jsTrim inp.pickupName,
        phone := strOpt (jsTrim inp.phone),
        marketingOptIn := inp.marketing }
    (some order, ⟨(order :: st.orders).take 300, some qs.2⟩)

/-- The overdue test of the expiry sweep: status is New, expiresAt is
truthy (present and nonzero) and now is strictly past it. -/
def overdueNew (now : Nat) (o : Order) : Bool :=
  o.status == .New &&
    (match o.expiresAt with
     | some e => decide (e ≠ 0) && decide (e < now)
     | none => false)

/-- The per-order effect of one sweep tick. -/
def sweepOne (now : Nat) (o : Order) : Order :=
  if overdueNew now o then { o with status := .Cancelled } else o

/-- The expiry sweep over the stored collection: flip every overdue
New order to Cancelled, leave everything else alone. -/
def sweep (now : Nat) (orders : List Order) : List Order :=
  orders.map (sweepOne now)

/-- updateOrder specialized to the status patches issued by the staff
board buttons: merge the new status into the matching order. -/
def updateStatus (id : String) (t : Status) (orders : List Order) : List Order :=
  orders.map (fun o => if o.id == id then { o with status := t } else o)

/-- Which status button the staff board renders on an order with the
given current status: Mark Paid only on New; each of Preparing,
Ready, Done and Cancel whenever the current status differs from the
target; no button targets New. -/
def transitionOffered (s t : Status) : Bool :=
  match t with
  | .New => false
  | .Paid => s == .New
  | .Preparing => s != .Preparing
  | .Ready => s != .Ready
  | .Done => s != .Done
  | .Cancelled => s != .Cancelled

/-- A raw stored order record as read back from persistence, every
field possibly absent and the status an arbitrary string. -/
structure RawOrder where
  id : Option String
  items : Option (List OrderItem)
  total : Option ℚ
  status : Option String
  createdAt : Option Nat
  expiresAt : Option Nat
  note : Option String
  pickupName : Option String
  phone : Option String
  marketingOptIn : Option Bool
deriving DecidableEq, Repr

/-- The allowed status strings of the normalization in getAllOrders. -/
def allowedStatuses : List String :=
  ["New", "Paid", "Preparing", "Ready", "Done", "Cancelled"]

/-- Decode an allowed status string into the status type. -/
def statusOfString (s : String) : Status :=
  if s == "Paid" then .Paid
  else if s == "Preparing" then .Preparing
  else if s == "Ready" then .Ready
  else if s == "Done" then .Done
  else if s == "Cancelled" then .Cancelled
  else .New

/-- The normalize helper of getAllOrders: keep a status in the allowed
list, anything else becomes New. -/
def normalizeStatus (s : Option String) : Status :=
  match s with
  | some str => if str ∈ allowedStatuses then statusOfString str else .New
  | none => .New

/-- The truthiness guard on the stored expiresAt: a present nonzero
value survives, everything else becomes undefined. -/
def normalizeExpires (e : Option Nat) : Option Nat :=
  match e with
  | some v => if v ≠ 0 then some v else none
  | none => none

/-- The per-record field coercions of getAllOrders; now stands for the
Date.now() default applied to a missing createdAt. -/
def normalizeOrder (now : Nat) (o : RawOrder) : Order :=
  { id := o.id.getD "",
    items := o.items.getD [],
    total := o.total.getD 0,
    status := normalizeStatus o.status,
    createdAt := o.createdAt.getD now,
    expiresAt := normalizeExpires o.expiresAt,
    note := o.note,
    pickupName := o.pickupName.getD "",
    phone := o.phone,
    marketingOptIn := o.marketingOptIn.getD false }

/-- getAllOrders on a readable stored collection: normalize every
record, dropping none. -/
def getAllOrders (now : Nat) (raw : List RawOrder) : List Order :=
  raw.map (normalizeOrder now)

/-- The shared increment-or-append shape of addFlavor and the addDrink
body: bump the qty of the line keyed by the target sku, or append the
fresh line. -/
def upsertQty (target : String) (fresh : CartItem) (prev : List CartItem) :
    List CartItem :=
  match prev.find? (fun p => p.sku == target) with
  | some _ => prev.map (fun p => if p.sku == target then { p with qty := p.qty + 1 } else p)
  | none => prev ++ [fresh]

/-- The fresh line item addFlavor appends. -/
def freshFlavorItem (f : Flavor) : CartItem :=
  { sku := skuOfFlavor f, flavorId := f.id, name := "Soufflé — " ++ f.name,
    unitPrice := priceFor f, qty := 1, addons := [] }

/-- The fresh line item the addDrink body appends. -/
def freshDrinkItem (d : Drink) : CartItem :=
  { sku := d.id, flavorId := "", name := d.name,
    unitPrice := d.price, qty := 1, addons := [] }

/-- An add-to-cart call of the kind quantified over by the cart
uniqueness property: an addFlavor call or a successful addDrink call
carrying the drink found in the catalog. -/
inductive AddCall where
  | flavor (f : Flavor)
  | drinkAdd (d : Drink)
deriving DecidableEq, Repr

/-- The sku targeted by an add-to-cart call. -/
def callSku : AddCall → String
  | .flavor f => skuOfFlavor f
  | .drinkAdd d => d.id

/-- Apply one add-to-cart call. -/
def applyAddCall (c : AddCall) (cart : List CartItem) : List CartItem :=
  match c with
  | .flavor f => addFlavor f cart
  | .drinkAdd d => addDrinkItem d cart

/-- Run a sequence of add-to-cart calls from the empty cart. -/
def runAddCalls (calls : List AddCall) : List CartItem :=
  calls.foldl (fun cart c => applyAddCall c cart) []

/-- A call of the kind quantified over by the drink addon cap
property: a successful addDrink call or an addCheeseToDrink call. -/
inductive DrinkCall where
  | drinkAdd (d : Drink)
  | cheese (sku : String)
deriving DecidableEq, Repr

/-- Apply one drink-flow call. -/
def applyDrinkCall (c : DrinkCall) (cart : List CartItem) : List CartItem :=
  match c with
  | .drinkAdd d => addDrinkItem d cart
  | .cheese s => addCheeseToDrink s cart

/-- Run a sequence of drink-flow calls from the empty cart. -/
def runDrinkCalls (calls : List DrinkCall) : List CartItem :=
  calls.foldl (fun cart c => applyDrinkCall c cart) []

/-- The qty list of the lines keyed by a sku: the shape the per-sku
uniqueness property constrains. -/
def qtyListAt (s : String) (cart : List CartItem) : List Nat :=
  (cart.filter (fun p => p.sku == s)).map CartItem.qty

/-- The singleton-or-empty encoding of a count as a qty list. -/
def natRep (n : Nat) : List Nat := if n = 0 then [] else [n]

/-- A concrete Done order used to exhibit a transition out of a
terminal status. -/
def oDoneC1 : Order :=
  { id := "Q-007", items := [], total := 0, status := .Done, createdAt := 0,
    expiresAt := none, note := none, pickupName := "A", phone := none,
    marketingOptIn := false }

/-- A concrete submission input for the expiry-field witness. -/
def inpC2 : SubmitInput :=
  { cart := [{ sku := "souffle-van", flavorId := "van", name := "Soufflé — Vanilla",
               unitPrice := 12, qty := 1, addons := [] }],
    note := "", pickupName := "A", phone := "", marketing := true }

/-- A concrete submission input for the total witness: one soufflé
line with a cheese addon and one drink line. -/
def inpC5 : SubmitInput :=
  { cart := [{ sku := "souffle-mat", flavorId := "mat", name := "Soufflé — Matcha",
               unitPrice := 27/2, qty := 2,
               addons := [{ id := "addon-cheese", name := "Cheese Topping",
                            price := 2, qty := 1 }] },
             { sku := "drink-hojicha", flavorId := "", name := "Hojicha (Drink)",
               unitPrice := 3, qty := 1, addons := [] }],
    note := "", pickupName := "B", phone := "", marketing := false }

/-- A concrete cart-less submission input for the rejection witness. -/
def inpC6 : SubmitInput :=
  { cart := [], note := "", pickupName := "A", phone := "", marketing := true }

/-- A concrete store with one order, for the rejection witness. -/
def stC6 : Store := ⟨[oDoneC1], some ⟨2025, 7⟩⟩

/-- A concrete overdue New order for the sweep witness. -/
def oNewC4 : Order :=
  { id := "Q-001", items := [], total := 0, status := .New, createdAt := 0,
    expiresAt := some 600000, note := none, pickupName := "A", phone := none,
    marketingOptIn := false }

/-- A concrete cart line for the decrement witness. -/
def itemC8 : CartItem :=
  { sku := "souffle-van", flavorId := "van", name := "Soufflé — Vanilla",
    unitPrice := 12, qty := 1, addons := [] }

/-- A concrete raw record with a bogus status and missing fields, for
the normalization witness. -/
def rawC10 : RawOrder :=
  { id := some "Q-003", items := none, total := none, status := some "Bogus",
    createdAt := none, expiresAt := some 5, note := none, pickupName := none,
    phone := none, marketingOptIn := none }

/-- The catalog drink, for the addon-cap witness. -/
def dC3 : Drink := ⟨"drink-hojicha", "Hojicha (Drink)", 3⟩

/-- A concrete drink-flow call sequence: add the drink, add cheese. -/
def callsC3 : List DrinkCall := [.drinkAdd dC3, .cheese "drink-hojicha"]

/-- The line item callsC3 produces. -/
def itemC3 : CartItem :=
  { sku := "drink-hojicha", flavorId := "", name := "Hojicha (Drink)",
    unitPrice := 3, qty := 1,
    addons := [{ id := "addon-cheese", name := "Cheese Topping", price := 2, qty := 1 }] }

/-- The cheese addon on itemC3. -/
def addonC3 : Addon :=
  { id := "addon-cheese", name := "Cheese Topping", price := 2, qty := 1 }

/-- The empty backend store. -/
def store0 : Store := ⟨[], none⟩

/-- A placeholder order used only as a getD default below. -/
def order0 : Order :=
  { id := "", items := [], total := 0, status := .New, createdAt := 0,
    expiresAt := none, note := none, pickupName := "", phone := none,
    marketingOptIn := false }

/-- The order produced by submitting inpC2 at time 1000 in year 2025
from the empty store. -/
def orderC2 : Order := ((submitOrder inpC2 1000 2025 store0).1).getD order0

/-- The order produced by submitting inpC5 at time 0 in year 2025 from
the empty store. -/
def orderC5 : Order := ((submitOrder inpC5 0 2025 store0).1).getD order0

/-- C6: submission with an empty cart or a blank (whitespace-only)
pickup name creates no order and leaves the store, both the order
collection and the queue sequence counter, unchanged. -/
theorem C6_reject_no_write (inp : SubmitInput) (now nowYear : Nat) (st : Store)
    (h : inp.cart = [] ∨ jsTrim inp.pickupName = "") :
    submitOrder inp now nowYear st = (none, st) := by
  rcases h with h | h
  · simp [submitOrder, h]
  · by_cases hc : inp.cart.length = 0
    · simp [submitOrder, hc]
    · simp [submitOrder, hc, h]

/-- Witness for C6 at a concrete empty-cart submission. -/
theorem C6_reject_no_write_witness : submitOrder inpC6 0 2025 stC6 = (none, stC6) :=
  C6_reject_no_write inpC6 0 2025 stC6 (Or.inl rfl)

/-- C2: every order created by submitOrder carries an expiresAt equal
to its createdAt plus the 10 minute payment window, 600000 ms. -/
theorem C2_expiresAt_window (inp : SubmitInput) (now nowYear : Nat) (st : Store)
    (o : Order) (h : (submitOrder inp now nowYear st).1 = some o) :
    o.expiresAt = some (o.createdAt + 600000) := by
  by_cases hc : inp.cart.length = 0
  · simp [submitOrder, hc] at h
  · by_cases hn : jsTrim inp.pickupName == ""
    · simp [submitOrder, hc, hn] at h
    · simp only [submitOrder] at h
      rw [if_neg hc, if_neg (by simpa using hn)] at h
      simp only [Option.some.injEq] at h
      obtain rfl := h.symm
      rfl

/-- Witness for C2 at a concrete submission. -/
theorem C2_expiresAt_window_witness :
    (submitOrder inpC2 1000 2025 store0).1 = some orderC2
    ∧ orderC2.expiresAt = some (orderC2.createdAt + 600000) :=
  ⟨rfl, C2_expiresAt_window inpC2 1000 2025 store0 orderC2 rfl⟩

/-- C9: a queue number drawn from an absent sequence or right after a
year rollover is Q-001; within the same year each draw increments the
stored counter by one, so counters strictly increase, and the number
is the fixed prefix with the zero-padded counter. -/
theorem C9_queue_numbers (Y : Nat) (s : SeqState) :
    nextQueueNumber Y none = ("Q-001", ⟨Y, 1⟩)
    ∧ (s.y = Y →
        nextQueueNumber Y (some s) =
          ("Q-" ++ padStart3 (toString (s.n + 1)), ⟨Y, s.n + 1⟩) ∧ s.n < s.n + 1)
    ∧ (s.y ≠ Y → nextQueueNumber Y (some s) = ("Q-001", ⟨Y, 1⟩)) := by
  refine ⟨?_, fun h => ⟨?_, Nat.lt_succ_self _⟩, fun h => ?_⟩
  · simp only [nextQueueNumber, Option.getD_some, Option.getD_none, ne_eq,
      not_true_eq_false, if_false, ite_self]
    rfl
  · simp [nextQueueNumber, h]
  · simp only [nextQueueNumber, Option.getD_some, ne_eq, h, not_false_eq_true,
      if_true, ite_true]
    rfl

/-- Witness for C9 at a concrete same-year draw. -/
theorem C9_queue_numbers_witness :
    nextQueueNumber 2025 (some ⟨2025, 5⟩) =
      ("Q-" ++ padStart3 (toString (5 + 1)), ⟨2025, 5 + 1⟩) ∧ 5 < 5 + 1 :=
  (C9_queue_numbers 2025 ⟨2025, 5⟩).2.1 rfl

/-- C8: dec on an absent sku leaves the cart unchanged; dec on a line
found at qty 1 removes every line with that sku from the cart. -/
theorem C8_dec_behaviour (cart : List CartItem) (s : String) :
    ((∀ i ∈ cart, i.sku ≠ s) → dec s cart = cart)
    ∧ (∀ x, cart.find? (fun p => p.sku == s) = some x → x.qty = 1 →
        dec s cart = cart.filter (fun p => !(p.sku == s))
        ∧ ∀ i ∈ dec s cart, i.sku ≠ s) := by
  constructor
  · intro h
    have hf : cart.find? (fun p => p.sku == s) = none := by
      rw [List.find?_eq_none]
      intro x hx
      simp [h x hx]
    simp [dec, hf]
  · intro x hfind hq
    have heq : dec s cart = cart.filter (fun p => !(p.sku == s)) := by
      simp [dec, hfind, hq]
    refine ⟨heq, ?_⟩
    intro i hi
    rw [heq, List.mem_filter] at hi
    simpa using hi.2

/-- Witness for C8 at a concrete qty-1 cart line. -/
theorem C8_dec_behaviour_witness : dec "souffle-van" [itemC8] = [] := by
  have h := ((C8_dec_behaviour [itemC8] "souffle-van").2 itemC8 (by decide) rfl).1
  simpa using h

/-- C1 counterexample: an order whose status is Done still has the
Preparing transition offered on the staff board, and applying it
through updateOrder changes the status away from Done, so Done is not
terminal under operator-issued transitions. -/
theorem C1_terminal_counterexample :
    oDoneC1.status = Status.Done
    ∧ transitionOffered oDoneC1.status Status.Preparing = true
    ∧ updateStatus oDoneC1.id Status.Preparing [oDoneC1]
        = [{ oDoneC1 with status := Status.Preparing }]
    ∧ Status.Preparing ≠ Status.Done := by
  refine ⟨rfl, rfl, ?_, by decide⟩
  simp [updateStatus, oDoneC1]

/-- C1 amended: the staff board offers Mark Paid exactly on New
orders, and each of Preparing, Ready, Done and Cancel exactly when
the current status differs from the target, with no restriction on
Done or Cancelled; every offered transition, applied through
updateOrder, overwrites the status of the matching order with the
target. -/
theorem C1_transitions_amended :
    (∀ s t : Status, transitionOffered s t = true ↔
        ((t = Status.Paid ∧ s = Status.New)
          ∨ (t ≠ Status.New ∧ t ≠ Status.Paid ∧ s ≠ t)))
    ∧ (∀ (o : Order) (t : Status), transitionOffered o.status t = true →
        updateStatus o.id t [o] = [{ o with status := t }]) := by
  constructor
  · intro s t
    cases s <;> cases t <;> decide
  · intro o t _
    simp [updateStatus]

/-- Witness for the amended C1 at a concrete Done order. -/
theorem C1_transitions_amended_witness :
    updateStatus oDoneC1.id Status.Preparing [oDoneC1]
      = [{ oDoneC1 with status := Status.Preparing }] :=
  C1_transitions_amended.2 oDoneC1 Status.Preparing (by decide)

/-- C10: getAllOrders drops no record; a record whose status is not
one of the six allowed strings, or is absent, comes back with status
New; missing total, createdAt, pickupName and marketingOptIn fields
are coerced to 0, the read time, the empty string and false. -/
theorem C10_normalization (now : Nat) (raws : List RawOrder) (r : RawOrder)
    (hr : r ∈ raws) :
    normalizeOrder now r ∈ getAllOrders now raws
    ∧ (getAllOrders now raws).length = raws.length
    ∧ (∀ s, r.status = some s → s ∉ allowedStatuses →
        (normalizeOrder now r).status = Status.New)
    ∧ (r.status = none → (normalizeOrder now r).status = Status.New)
    ∧ (r.total = none → (normalizeOrder now r).total = 0)
    ∧ (r.createdAt = none → (normalizeOrder now r).createdAt = now)
    ∧ (r.pickupName = none → (normalizeOrder now r).pickupName = "")
    ∧ (r.marketingOptIn = none → (normalizeOrder now r).marketingOptIn = false) := by
  refine ⟨List.mem_map_of_mem _ hr, List.length_map _ _, ?_, ?_, ?_, ?_, ?_, ?_⟩
  · intro s hs hns
    simp [normalizeOrder, normalizeStatus, hs, hns]
  · intro hs
    simp [normalizeOrder, normalizeStatus, hs]
  · intro ht
    simp [normalizeOrder, ht]
  · intro hc
    simp [normalizeOrder, hc]
  · intro hp
    simp [normalizeOrder, hp]
  · intro hm
    simp [normalizeOrder, hm]

/-- Witness for C10 at a concrete bogus-status record with missing
fields. -/
theorem C10_normalization_witness :
    (normalizeOrder 77 rawC10).status = Status.New
    ∧ (normalizeOrder 77 rawC10).createdAt = 77 :=
  ⟨(C10_normalization 77 [rawC10] rawC10 (by simp)).2.2.1 "Bogus" rfl (by decide),
   (C10_normalization 77 [rawC10] rawC10 (by simp)).2.2.2.2.2.1 rfl⟩

/-- One sweep tick is idempotent on a single order: a cancelled order
is no longer New, so the second tick changes nothing. -/
theorem sweepOne_idem (now : Nat) (o : Order) :
    sweepOne now (sweepOne now o) = sweepOne now o := by
  by_cases hov : overdueNew now o = true
  · have h1 : sweepOne now o = { o with status := Status.Cancelled } := by
      simp [sweepOne, hov]
    rw [h1]
    have h2 : overdueNew now { o with status := Status.Cancelled } = false := by
      simp [overdueNew]
    simp [sweepOne, h2]
  · have h1 : sweepOne now o = o := by simp [sweepOne, hov]
    rw [h1, h1]

/-- C4: on a collection whose expiry stamps are never the stored zero
value (true of every collection read back through getAllOrders), the
sweep at time now cancels exactly the New orders whose expiry lies
strictly before now, touching only the status field, leaves every
other order unchanged, and running it again is a no-op. -/
theorem C4_sweep_expiry (now : Nat) (orders : List Order)
    (h : ∀ o ∈ orders, o.expiresAt ≠ some 0) :
    (∀ o ∈ orders, (o.status = Status.New ∧ ∃ e, o.expiresAt = some e ∧ e < now) →
        sweepOne now o = { o with status := Status.Cancelled })
    ∧ (∀ o ∈ orders, ¬(o.status = Status.New ∧ ∃ e, o.expiresAt = some e ∧ e < now) →
        sweepOne now o = o)
    ∧ sweep now orders = orders.map (sweepOne now)
    ∧ sweep now (sweep now orders) = sweep now orders := by
  refine ⟨?_, ?_, rfl, ?_⟩
  · rintro o ho ⟨hs, e, he, hlt⟩
    have hne : e ≠ 0 := by
      intro h0
      exact h o ho (h0 ▸ he)
    simp [sweepOne, overdueNew, hs, he, hne, hlt]
  · intro o ho hn
    push_neg at hn
    by_cases hs : o.status = Status.New
    · cases he : o.expiresAt with
      | none => simp [sweepOne, overdueNew, he]
      | some e =>
          have := hn hs e he
          simp [sweepOne, overdueNew, he, this]
    · simp [sweepOne, overdueNew, hs]
  · rw [sweep, sweep, List.map_map]
    exact List.map_congr_left (fun o _ => sweepOne_idem now o)

/-- Witness for C4 at a concrete overdue order. -/
theorem C4_sweep_expiry_witness :
    sweepOne 601000 oNewC4 = { oNewC4 with status := Status.Cancelled } :=
  (C4_sweep_expiry 601000 [oNewC4] (by decide)).1 oNewC4 (by simp)
    ⟨rfl, 600000, rfl, by decide⟩

/-- Fold of successive addition equals the initial value plus the sum
of the mapped list. -/
theorem foldl_add_map {α : Type} (f : α → ℚ) (a : ℚ) (l : List α) :
    l.foldl (fun s i => s + f i) a = a + (l.map f).sum := by
  induction l generalizing a with
  | nil => simp
  | cons x xs ih => simp [ih, add_assoc]

/-- The addon fold is the sum of price times qty over the addons. -/
theorem addonSum_eq (l : List Addon) :
    addonSum l = (l.map (fun a => a.price * (a.qty : ℚ))).sum := by
  simpa using foldl_add_map (fun a : Addon => a.price * (a.qty : ℚ)) 0 l

/-- The literal per-item amount of the spec: unit price times qty plus
the sum of addon price times addon qty. -/
def specItemTotal (i : OrderItem) : ℚ :=
  i.unitPrice * (i.qty : ℚ) + (i.addons.map (fun a => a.price * (a.qty : ℚ))).sum

/-- The cart fold subtotal equals the spec sum over the frozen order
items of the cart. -/
theorem subtotal_eq_specSum (cart : List CartItem) :
    subtotal cart = ((cart.map orderItemOfCart).map specItemTotal).sum := by
  rw [subtotal, foldl_add_map, List.map_map, zero_add]
  refine congrArg List.sum (List.map_congr_left ?_)
  intro c _
  simp [Function.comp, specItemTotal, orderItemOfCart, addonSum_eq]

/-- C5: the total of every order created by submitOrder is the sum
over its line items of unit price times qty plus the addon amounts,
rounded to 2 decimals once at submission. -/
theorem C5_total_rounded (inp : SubmitInput) (now nowYear : Nat) (st : Store)
    (o : Order) (h : (submitOrder inp now nowYear st).1 = some o) :
    o.total = round2 ((o.items.map specItemTotal).sum) := by
  by_cases hc : inp.cart.length = 0
  · simp [submitOrder, hc] at h
  · by_cases hn : jsTrim inp.pickupName == ""
    · simp [submitOrder, hc, hn] at h
    · simp only [submitOrder] at h
      rw [if_neg hc, if_neg (by simpa using hn)] at h
      simp only [Option.some.injEq] at h
      obtain rfl := h.symm
      show round2 (subtotal inp.cart) = _
      rw [subtotal_eq_specSum]

/-- Witness for C5 at a concrete two-line cart with an addon. -/
theorem C5_total_rounded_witness :
    (submitOrder inpC5 0 2025 store0).1 = some orderC5
    ∧ orderC5.total = round2 ((orderC5.items.map specItemTotal).sum) :=
  ⟨rfl, C5_total_rounded inpC5 0 2025 store0 orderC5 rfl⟩

/-- The invariant of the drink flow: every line has at least one unit
and no addon qty exceeds the line qty. -/
def drinkInv (cart : List CartItem) : Prop :=
  ∀ i ∈ cart, 1 ≤ i.qty ∧ ∀ a ∈ i.addons, a.qty ≤ i.qty

/-- Incrementing the first cheese addon keeps a bound q on all addon
quantities when the addon found by find? is strictly below q. -/
theorem incFirstCheese_bound (l : List Addon) (q : Nat)
    (hall : ∀ a ∈ l, a.qty ≤ q) (ex : Addon)
    (hfind : l.find? (fun a => a.id == CHEESE_id) = some ex) (hlt : ex.qty < q) :
    ∀ a ∈ incFirstCheese l, a.qty ≤ q := by
  induction l with
  | nil => simp at hfind
  | cons b rest ih =>
      by_cases hb : (b.id == CHEESE_id) = true
      · have hfb : List.find? (fun a => a.id == CHEESE_id) (b :: rest) = some b :=
          List.find?_cons_of_pos _ hb
        rw [hfb] at hfind
        obtain rfl : b = ex := by injection hfind
        intro a ha
        rw [incFirstCheese, if_pos hb] at ha
        rcases List.mem_cons.mp ha with rfl | ha
        · exact hlt
        · exact hall a (List.mem_cons_of_mem _ ha)
      · have hfb : List.find? (fun a => a.id == CHEESE_id) (b :: rest)
            = List.find? (fun a => a.id == CHEESE_id) rest :=
          List.find?_cons_of_neg _ hb
        rw [hfb] at hfind
        intro a ha
        rw [incFirstCheese, if_neg hb] at ha
        rcases List.mem_cons.mp ha with rfl | ha
        · exact hall a (List.mem_cons_self a rest)
        · exact ih (fun x hx => hall x (List.mem_cons_of_mem _ hx)) hfind a ha

/-- addCheeseToDrink preserves the drink-flow invariant. -/
theorem addCheeseToDrink_inv (s : String) (cart : List CartItem)
    (h : drinkInv cart) : drinkInv (addCheeseToDrink s cart) := by
  intro i hi
  rw [addCheeseToDrink] at hi
  rcases List.mem_map.mp hi with ⟨p, hp, rfl⟩
  obtain ⟨hq, ha⟩ := h p hp
  by_cases hs : (p.sku == s) = true
  · rw [if_pos hs]
    cases hfind : p.addons.find? (fun a => a.id == CHEESE_id) with
    | some ex =>
        simp only [hfind]
        by_cases hlt : ex.qty < p.qty
        · rw [if_pos hlt]
          exact ⟨hq, incFirstCheese_bound p.addons p.qty ha ex hfind hlt⟩
        · rw [if_neg hlt]
          exact ⟨hq, ha⟩
    | none =>
        simp only [hfind]
        refine ⟨hq, ?_⟩
        intro a haa
        rcases List.mem_append.mp haa with haa | haa
        · exact ha a haa
        · rcases List.mem_singleton.mp haa with rfl
          exact hq
  · rw [if_neg hs]
    exact ⟨hq, ha⟩

/-- The addDrink body preserves the drink-flow invariant. -/
theorem addDrinkItem_inv (d : Drink) (cart : List CartItem)
    (h : drinkInv cart) : drinkInv (addDrinkItem d cart) := by
  intro i hi
  rw [addDrinkItem] at hi
  cases hfind : cart.find? (fun p => p.sku == d.id) with
  | some w =>
      rw [hfind] at hi
      rcases List.mem_map.mp hi with ⟨p, hp, rfl⟩
      obtain ⟨hq, ha⟩ := h p hp
      by_cases hs : (p.sku == d.id) = true
      · rw [if_pos hs]
        exact ⟨Nat.le_succ_of_le hq, fun a haa => Nat.le_succ_of_le (ha a haa)⟩
      · rw [if_neg hs]
        exact ⟨hq, ha⟩
  | none =>
      rw [hfind] at hi
      rcases List.mem_append.mp hi with hi | hi
      · exact h i hi
      · rcases List.mem_singleton.mp hi with rfl
        exact ⟨Nat.le_refl 1, by simp⟩

/-- C3: for every cart reached by any interleaving of addDrink and
addCheeseToDrink calls from the empty cart, no addon qty on a line
item ever exceeds the qty of that line item. -/
theorem C3_cheese_capped (calls : List DrinkCall) :
    ∀ i ∈ runDrinkCalls calls, ∀ a ∈ i.addons, a.qty ≤ i.qty := by
  have main : ∀ (cs : List DrinkCall) (cart : List CartItem), drinkInv cart →
      drinkInv (cs.foldl (fun c k => applyDrinkCall k c) cart) := by
    intro cs
    induction cs with
    | nil => intro cart h; exact h
    | cons k ks ih =>
        intro cart h
        rw [List.foldl_cons]
        refine ih _ ?_
        cases k with
        | drinkAdd d => exact addDrinkItem_inv d cart h
        | cheese s => exact addCheeseToDrink_inv s cart h
  intro i hi a ha
  exact ((main calls [] (by intro i h; simp at h)) i hi).2 a ha

/-- Witness for C3: one drink then one cheese yields a line with a
one-unit cheese addon on a one-unit drink. -/
theorem C3_cheese_capped_witness : addonC3.qty ≤ itemC3.qty :=
  C3_cheese_capped callsC3 itemC3 (by decide) addonC3 (by decide)

/-- addFlavor is the upsert shape at the derived sku. -/
theorem addFlavor_eq_upsert (f : Flavor) (prev : List CartItem) :
    addFlavor f prev = upsertQty (skuOfFlavor f) (freshFlavorItem f) prev := rfl

/-- The addDrink body is the upsert shape at the drink sku. -/
theorem addDrinkItem_eq_upsert (d : Drink) (prev : List CartItem) :
    addDrinkItem d prev = upsertQty d.id (freshDrinkItem d) prev := rfl

/-- Upserting at the target sku turns the qty list at that sku from
the encoding of n into the encoding of n plus one. -/
theorem qtyListAt_upsert_self (target : String) (fresh : CartItem)
    (hsku : fresh.sku = target) (hq : fresh.qty = 1) (cart : List CartItem)
    (n : Nat) (h : qtyListAt target cart = natRep n) :
    qtyListAt target (upsertQty target fresh cart) = natRep (n + 1) := by
  cases hfind : cart.find? (fun p => p.sku == target) with
  | none =>
      have hnone : ∀ p ∈ cart, ¬((p.sku == target) = true) := by
        intro p hp
        exact List.find?_eq_none.mp hfind p hp
      have hfe : cart.filter (fun p => p.sku == target) = [] :=
        List.filter_eq_nil_iff.mpr hnone
      have hn0 : n = 0 := by
        by_contra hne
        simp only [qtyListAt, hfe, List.map_nil, natRep, if_neg hne] at h
        exact List.noConfusion h
      subst hn0
      simp only [upsertQty, hfind]
      simp [qtyListAt, List.filter_append, hfe, hsku, hq, natRep]
  | some w =>
      have hwmem : w ∈ cart := List.mem_of_find?_eq_some hfind
      have hwp : (w.sku == target) = true := by
        have := List.find?_some hfind
        simpa using this
      have hfne : cart.filter (fun p => p.sku == target) ≠ [] := by
        intro hnil
        exact (List.filter_eq_nil_iff.mp hnil w hwmem) hwp
      have hn : n ≠ 0 := by
        intro h0
        subst h0
        simp only [qtyListAt, natRep, if_pos rfl] at h
        exact hfne (List.map_eq_nil_iff.mp h)
      simp only [natRep, if_neg hn] at h
      obtain ⟨x, hfx, hxq⟩ :
          ∃ x, cart.filter (fun p => p.sku == target) = [x] ∧ x.qty = n := by
        rcases hf : cart.filter (fun p => p.sku == target) with _ | ⟨y, ys⟩
        · exact absurd hf hfne
        · rcases ys with _ | ⟨z, zs⟩
          · refine ⟨y, hf, ?_⟩
            simp only [qtyListAt, hf, List.map_cons, List.map_nil] at h
            simpa using h
          · simp only [qtyListAt, hf, List.map_cons] at h
            simp at h
      simp only [upsertQty, hfind]
      simp only [qtyListAt, List.filter_map]
      have hcong : cart.filter ((fun p => p.sku == target) ∘
          (fun p => if p.sku == target then { p with qty := p.qty + 1 } else p))
          = cart.filter (fun p => p.sku == target) := by
        apply List.filter_congr
        intro p _
        by_cases hp : (p.sku == target) = true <;> simp [Function.comp, hp]
      rw [hcong, hfx]
      have hx : (x.sku == target) = true := by
        have hxmem : x ∈ cart.filter (fun p => p.sku == target) := by
          rw [hfx]
          exact List.mem_singleton_self x
        exact (List.mem_filter.mp hxmem).2
      have hx2 : x.sku = target := by simpa using hx
      simp [hx2, hxq, natRep, hn]

/-- Upserting at a different sku leaves the qty list at this sku
unchanged. -/
theorem qtyListAt_upsert_other (target s : String) (fresh : CartItem)
    (hsku : fresh.sku = target) (hne : target ≠ s) (cart : List CartItem) :
    qtyListAt s (upsertQty target fresh cart) = qtyListAt s cart := by
  cases hfind : cart.find? (fun p => p.sku == target) with
  | none =>
      simp only [upsertQty, hfind]
      simp only [qtyListAt, List.filter_append]
      have hfr : List.filter (fun p => p.sku == s) [fresh] = [] := by
        simp [hsku, hne]
      rw [hfr, List.append_nil]
  | some w =>
      simp only [upsertQty, hfind]
      simp only [qtyListAt, List.filter_map, List.map_map]
      have hcong : cart.filter ((fun p => p.sku == s) ∘
          (fun p => if p.sku == target then { p with qty := p.qty + 1 } else p))
          = cart.filter (fun p => p.sku == s) := by
        apply List.filter_congr
        intro p _
        by_cases hp : (p.sku == target) = true <;> simp [Function.comp, hp]
      rw [hcong]
      apply List.map_congr_left
      intro p hp
      have hps : (p.sku == s) = true := (List.mem_filter.mp hp).2
      have hpt : ¬((p.sku == target) = true) := by
        intro hc
        apply hne
        have h1 : p.sku = target := by simpa using hc
        have h2 : p.sku = s := by simpa using hps
        rw [← h1, h2]
      simp [Function.comp, hpt]

/-- C7: after any sequence of addFlavor and successful addDrink calls
from the empty cart, the qty list at every sku is empty when no call
targeted it and the singleton of the call count otherwise: one line
per distinct sku, with qty the number of calls for that sku. -/
theorem C7_one_line_per_sku (calls : List AddCall) (s : String) :
    qtyListAt s (runAddCalls calls) =
      natRep (calls.countP (fun k => callSku k == s)) := by
  have main : ∀ (cs : List AddCall) (cart : List CartItem) (n : Nat),
      qtyListAt s cart = natRep n →
      qtyListAt s (cs.foldl (fun c k => applyAddCall k c) cart)
        = natRep (n + cs.countP (fun k => callSku k == s)) := by
    intro cs
    induction cs with
    | nil =>
        intro cart n h
        simpa using h
    | cons k ks ih =>
        intro cart n h
        rw [List.foldl_cons]
        by_cases hk : (callSku k == s) = true
        · have step : qtyListAt s (applyAddCall k cart) = natRep (n + 1) := by
            cases k with
            | flavor f =>
                have hks : skuOfFlavor f = s := by simpa [callSku] using hk
                show qtyListAt s (addFlavor f cart) = natRep (n + 1)
                rw [addFlavor_eq_upsert, hks]
                exact qtyListAt_upsert_self s (freshFlavorItem f) hks rfl cart n h
            | drinkAdd d =>
                have hks : d.id = s := by simpa [callSku] using hk
                show qtyListAt s (addDrinkItem d cart) = natRep (n + 1)
                rw [addDrinkItem_eq_upsert, hks]
                exact qtyListAt_upsert_self s (freshDrinkItem d) hks rfl cart n h
          have hrec := ih (applyAddCall k cart) (n + 1) step
          rw [hrec, List.countP_cons]
          have hif : (if callSku k == s then 1 else 0) = 1 := by simp [hk]
          rw [hif]
          exact congrArg natRep (by omega)
        · have step : qtyListAt s (applyAddCall k cart) = natRep n := by
            cases k with
            | flavor f =>
                have hks : skuOfFlavor f ≠ s := by simpa [callSku] using hk
                show qtyListAt s (addFlavor f cart) = natRep n
                rw [addFlavor_eq_upsert,
                  qtyListAt_upsert_other (skuOfFlavor f) s (freshFlavorItem f) rfl hks cart]
                exact h
            | drinkAdd d =>
                have hks : d.id ≠ s := by simpa [callSku] using hk
                show qtyListAt s (addDrinkItem d cart) = natRep n
                rw [addDrinkItem_eq_upsert,
                  qtyListAt_upsert_other d.id s (freshDrinkItem d) rfl hks cart]
                exact h
          have hrec := ih (applyAddCall k cart) n step
          rw [hrec, List.countP_cons]
          have hif : (if callSku k == s then 1 else 0) = 0 := by simp [hk]
          rw [hif]
          exact congrArg natRep (by omega)
  have h0 : qtyListAt s ([] : List CartItem) = natRep 0 := by
    simp [qtyListAt, natRep]
  simpa [runAddCalls] using main calls [] 0 h0

end S2O
